import Mathlib

/-!
Shallow embedding of the bookstore backend (`bookstore_api/api`: `serializers.py`,
`views.py`).  The relational state is a record of lists of rows; each HTTP-level
operation is a pure function from the state to `Except String` of the new state,
translated from the corresponding serializer `create`/`validate` method or viewset
action.  Django's `DecimalField` prices are modelled as `ℚ`; integer columns as `ℤ`
(Python integers are unbounded); autoincrement primary keys as explicit counters
carried in the state.
-/

namespace Bookstore

/-- A row of the `Book` table (`api/models.py`); only the columns the API logic
reads or writes are kept: primary key, `price`, `stock_quantity`. -/
structure Book where
  id : Nat
  price : ℚ
  stock_quantity : ℤ
  deriving Repr, DecidableEq

/-- A row of the `Cart` table: primary key and owning user. -/
structure Cart where
  id : Nat
  userId : Nat
  deriving Repr, DecidableEq

/-- A row of the `CartItem` table: primary key, parent cart, referenced book,
`quantity`. -/
structure CartItem where
  id : Nat
  cartId : Nat
  bookId : Nat
  quantity : ℤ
  deriving Repr, DecidableEq

/-- A row of the `Order` table: primary key, owning user, `shipping_address`,
`total_price`. -/
structure Order where
  id : Nat
  userId : Nat
  shipping_address : String
  total_price : ℚ
  deriving Repr, DecidableEq

/-- A row of the `OrderItem` table: parent order, referenced book, `quantity`,
and the `price` snapshot taken at order time. -/
structure OrderItem where
  orderId : Nat
  bookId : Nat
  quantity : ℤ
  price : ℚ
  deriving Repr, DecidableEq

/-- A row of the `Review` table: referenced book, authoring user, `rating`. -/
structure Review where
  bookId : Nat
  userId : Nat
  rating : ℤ
  deriving Repr, DecidableEq

/-- The database state: one list per table, plus autoincrement counters for the
primary keys the operations assign (`Order.id`, `CartItem.id`). -/
structure DB where
  books : List Book
  carts : List Cart
  cartItems : List CartItem
  orders : List Order
  orderItems : List OrderItem
  reviews : List Review
  nextOrderId : Nat
  nextCartItemId : Nat
  deriving Repr, DecidableEq

/-- Equality of operation outcomes is decidable, so concrete runs can be checked
by evaluation. -/
instance instDecEqExcept {ε α : Type} [DecidableEq ε] [DecidableEq α] :
    DecidableEq (Except ε α) := fun x y =>
  match x, y with
  | .error e, .error e' =>
    if h : e = e' then isTrue (by rw [h])
    else isFalse (by intro hc; injection hc; exact h ‹_›)
  | .error _, .ok _ => isFalse (by intro hc; exact Except.noConfusion hc)
  | .ok _, .error _ => isFalse (by intro hc; exact Except.noConfusion hc)
  | .ok a, .ok b =>
    if h : a = b then isTrue (by rw [h])
    else isFalse (by intro hc; injection hc; exact h ‹_›)

/-- `Book.objects.get(pk=bid)` / following a `book` foreign key. -/
def getBook (db : DB) (bid : Nat) : Option Book :=
  db.books.find? (fun b => b.id == bid)

/-- `Cart.objects.get(user=u)` / `get_object_or_404(Cart, user=u)`. -/
def getCart (db : DB) (userId : Nat) : Option Cart :=
  db.carts.find? (fun c => c.userId == userId)

/-- The row filter `CartItem.objects.filter(cart=cid, book=bid)` as a predicate. -/
def pMatch (cid bid : Nat) (it : CartItem) : Bool :=
  it.cartId == cid && it.bookId == bid

/-- The rows of `CartItem` for a given (cart, book) pair. -/
def pairItems (db : DB) (cid bid : Nat) : List CartItem :=
  db.cartItems.filter (pMatch cid bid)

/-- The quantities stored for a given (cart, book) pair. -/
def pairQty (db : DB) (cid bid : Nat) : List ℤ :=
  (pairItems db cid bid).map (fun it => it.quantity)

/-- The rows of `CartItem` belonging to a cart: `cart.items.all()`. -/
def cartItemsOf (db : DB) (cid : Nat) : List CartItem :=
  db.cartItems.filter (fun it => it.cartId == cid)

/-- `CartItem.objects.get(cart=cid, book=bid)` followed by an assignment to the
fetched row's `quantity` and `cart_item.save()`: rewrite the quantity of the row
for the pair (the ORM `get` presumes the at-most-one-row invariant; the model
updates the first match). -/
def overFirst (cid bid : Nat) (f : ℤ → ℤ) : List CartItem → List CartItem
  | [] => []
  | it :: rest =>
    if pMatch cid bid it then { it with quantity := f it.quantity } :: rest
    else it :: overFirst cid bid f rest

/-- `cart_item.quantity += q; cart_item.save()` on the row fetched for the pair. -/
def bumpFirst (cid bid : Nat) (q : ℤ) (xs : List CartItem) : List CartItem :=
  overFirst cid bid (fun n => n + q) xs

/-- `cart_item.quantity = q; cart_item.save()` on the row fetched for the pair. -/
def setFirst (cid bid : Nat) (q : ℤ) (xs : List CartItem) : List CartItem :=
  overFirst cid bid (fun _ => q) xs

/-- `cart_item.delete()` on the row fetched for the pair. -/
def dropFirst (cid bid : Nat) : List CartItem → List CartItem
  | [] => []
  | it :: rest =>
    if pMatch cid bid it then rest
    else it :: dropFirst cid bid rest

/-- `CartItemSerializer.create` (`serializers.py` 123-134), reached from
`CartViewSet.add_item` (`views.py` 93-102): fetch the requester's cart; if a
`CartItem` for (cart, book) exists, increment its quantity by
`validated_data.get("quantity", 1)`, else create a new row. -/
def addItem (db : DB) (userId bid : Nat) (qty? : Option ℤ) : Except String DB :=
  match getCart db userId with
  | none => Except.error "Cart matching query does not exist."
  | some cart =>
    let q := qty?.getD 1
    if (pairItems db cart.id bid).isEmpty then
      Except.ok { db with
        cartItems := db.cartItems ++ [⟨db.nextCartItemId, cart.id, bid, q⟩],
        nextCartItemId := db.nextCartItemId + 1 }
    else
      Except.ok { db with cartItems := bumpFirst cart.id bid q db.cartItems }

/-- `CartViewSet.update_item` (`views.py` 119-134): fetch the requester's cart,
read `quantity = request.data.get("quantity", 1)` (no validation of the value),
and assign it to the matching `CartItem`, or 404 when the book is not in the cart. -/
def updateItem (db : DB) (userId bid : Nat) (qty? : Option ℤ) : Except String DB :=
  match getCart db userId with
  | none => Except.error "Cart not found"
  | some cart =>
    let quantity := qty?.getD 1
    if (pairItems db cart.id bid).isEmpty then
      Except.error "Book not found in cart"
    else
      Except.ok { db with cartItems := setFirst cart.id bid quantity db.cartItems }

/-- `CartViewSet.remove_item` (`views.py` 104-117): delete the matching
`CartItem`, or 404 when the book is not in the cart. -/
def removeItem (db : DB) (userId bid : Nat) : Except String DB :=
  match getCart db userId with
  | none => Except.error "Cart not found"
  | some cart =>
    if (pairItems db cart.id bid).isEmpty then
      Except.error "Book not found in cart"
    else
      Except.ok { db with cartItems := dropFirst cart.id bid db.cartItems }

/-- `CartViewSet.clear` (`views.py` 136-141): `cart.items.all().delete()`. -/
def clearCart (db : DB) (userId : Nat) : Except String DB :=
  match getCart db userId with
  | none => Except.error "Cart not found"
  | some cart =>
    Except.ok { db with cartItems := db.cartItems.filter (fun it => !(it.cartId == cart.id)) }

/-- `Review.objects.filter(book=bid, user=uid)`. -/
def reviewsFor (db : DB) (bid uid : Nat) : List Review :=
  db.reviews.filter (fun r => r.bookId == bid && r.userId == uid)

/-- `book.reviews.all()`. -/
def bookReviews (db : DB) (bid : Nat) : List Review :=
  db.reviews.filter (fun r => r.bookId == bid)

/-- `ReviewSerializer.validate` + `create` (`serializers.py` 95-107): reject when
the requester already reviewed the book, else insert the new row with the
requester as author. -/
def createReview (db : DB) (userId bid : Nat) (rating : ℤ) : Except String DB :=
  if (reviewsFor db bid userId).isEmpty then
    Except.ok { db with reviews := db.reviews ++ [⟨bid, userId, rating⟩] }
  else
    Except.error "You have already reviewed this book."

/-- `BookSerializer.get_average_rating` (`serializers.py` 76-80): `None` when the
book has no reviews, else `sum(ratings) / len(reviews)` (division modelled
exactly in `ℚ`; the operands are integers). -/
def get_average_rating (db : DB) (bid : Nat) : Option ℚ :=
  let reviews := bookReviews db bid
  if reviews.isEmpty then none
  else some (((reviews.map (fun r => (r.rating : ℚ))).sum) / (reviews.length : ℚ))

/-!
Order placement.  `OrderSerializer.create` (`serializers.py` 174-210) issues a
sequence of ORM writes with no transaction demarcation (no `transaction.atomic`),
so under Django's default autocommit each write commits on its own.  The
embedding makes those commit points explicit: the run produces both the final
state and the list of committed writes, so that an execution aborted after `k`
writes is `commitWrites` of the length-`k` front of the list.
-/

/-- One committed ORM write issued by `OrderSerializer.create`. -/
inductive DBWrite
  | createOrder : Order → DBWrite
  | createOrderItem : OrderItem → DBWrite
  | saveBookStock : Nat → ℤ → DBWrite
  | deleteCartItems : Nat → DBWrite
  deriving Repr, DecidableEq

/-- `book.save()` after assigning `stock_quantity`: write the new value into the
book's row. -/
def updateStock (books : List Book) (bid : Nat) (s : ℤ) : List Book :=
  books.map (fun b => if b.id == bid then { b with stock_quantity := s } else b)

/-- Apply one committed write to the state. -/
def applyWrite (db : DB) : DBWrite → DB
  | .createOrder o =>
      { db with orders := db.orders ++ [o], nextOrderId := db.nextOrderId + 1 }
  | .createOrderItem oi => { db with orderItems := db.orderItems ++ [oi] }
  | .saveBookStock bid s => { db with books := updateStock db.books bid s }
  | .deleteCartItems cid =>
      { db with cartItems := db.cartItems.filter (fun it => !(it.cartId == cid)) }

/-- The state after the first writes of a run have committed. -/
def commitWrites (db : DB) (ws : List DBWrite) : DB :=
  ws.foldl applyWrite db

/-- Modelled from the spec: `Cart.total_price` is a property of the `Cart` model
in `api/models.py`, which is not among the provided sources.  The spec describes
order step 1 as "Compute total_price as sum over cart items of
(book.price × quantity) at the current moment". -/
def cartTotalPrice (db : DB) (items : List CartItem) : Option ℚ :=
  items.foldr
    (fun it acc => do
      let b ← getBook db it.bookId
      let s ← acc
      pure (b.price * (it.quantity : ℚ) + s))
    (some 0)

/-- The `for cart_item in cart.items.all():` loop of `OrderSerializer.create`
(`serializers.py` 194-205): per item, commit an `OrderItem` row copying the book,
the quantity and the book's current price, then commit the book's decremented
stock.  Returns the state after the loop together with the writes it committed. -/
def itemWrites (db : DB) (orderId : Nat) : List CartItem → Except String (DB × List DBWrite)
  | [] => Except.ok (db, [])
  | it :: rest =>
    match getBook db it.bookId with
    | none => Except.error "Book matching query does not exist."
    | some b =>
      let w1 := DBWrite.createOrderItem ⟨orderId, it.bookId, it.quantity, b.price⟩
      let w2 := DBWrite.saveBookStock it.bookId (b.stock_quantity - it.quantity)
      match itemWrites (applyWrite (applyWrite db w1) w2) orderId rest with
      | Except.error e => Except.error e
      | Except.ok (db2, ws) => Except.ok (db2, w1 :: w2 :: ws)

/-- `OrderSerializer.create` (`serializers.py` 174-210): fetch the requester's
cart; reject when it is empty; read `cart.total_price`; commit the `Order` row;
run the per-item loop; commit `cart.items.all().delete()`.  Returns the final
state and the full list of committed writes. -/
def placeOrderRun (db : DB) (userId : Nat) (shipping : String) :
    Except String (DB × List DBWrite) :=
  match getCart db userId with
  | none => Except.error "Cart matching query does not exist."
  | some cart =>
    let items := cartItemsOf db cart.id
    if items.isEmpty then
      Except.error "Cannot place order with empty cart"
    else
      match cartTotalPrice db items with
      | none => Except.error "Book matching query does not exist."
      | some total =>
        let order : Order := ⟨db.nextOrderId, userId, shipping, total⟩
        let w0 := DBWrite.createOrder order
        let db1 := applyWrite db w0
        match itemWrites db1 order.id items with
        | Except.error e => Except.error e
        | Except.ok (db2, ws) =>
          let wClear := DBWrite.deleteCartItems cart.id
          Except.ok (applyWrite db2 wClear, w0 :: (ws ++ [wClear]))

/-- The resulting state of a completed order placement. -/
def placeOrder (db : DB) (userId : Nat) (shipping : String) : Except String DB :=
  (placeOrderRun db userId shipping).map (fun r => r.1)

/-- The writes a completed order placement commits, in commit order. -/
def placeOrderWrites (db : DB) (userId : Nat) (shipping : String) :
    Except String (List DBWrite) :=
  (placeOrderRun db userId shipping).map (fun r => r.2)

/-!
Review authorization.  `ReviewViewSet` (`views.py` 61-77) declares
`permission_classes = [IsAuthenticated]`, and its `get_permissions` override
(71-74) returns `[IsAuthenticated()]` for `update`, `partial_update` and
`destroy` as well; DRF's `IsAuthenticated` consults only
`request.user.is_authenticated`.
-/

/-- The viewset actions relevant to a review. -/
inductive ReviewAction
  | list | retrieve | create | update | partialUpdate | destroy
  deriving Repr, DecidableEq

/-- A requester as the permission layer sees it. -/
structure Requester where
  userId : Nat
  authenticated : Bool
  isStaff : Bool
  deriving Repr, DecidableEq

/-- `ReviewViewSet.get_permissions` (`views.py` 71-74) composed with the checks
the returned permission classes perform.  For `update`/`partial_update`/`destroy`
the returned list is `[IsAuthenticated()]`; every other action falls through to
the class-level `permission_classes = [IsAuthenticated]`.  In both cases the
review's author plays no part in the decision. -/
def reviewActionPermitted (a : ReviewAction) (req : Requester)
    (_reviewAuthorId : Nat) : Bool :=
  match a with
  | .update | .partialUpdate | .destroy => req.authenticated
  | _ => req.authenticated

/-- Modelled from the spec: "Update/delete require requester = review author or
elevated role."  The repository's owner-check permission class lives in
`api/permissions.py`, which is not among the provided sources; this is the
requirement the spec states for review mutation. -/
def specReviewMutationAllowed (req : Requester) (reviewAuthorId : Nat) : Bool :=
  req.authenticated && (req.userId == reviewAuthorId || req.isStaff)

/-!
Concrete database states used to evaluate the operations on specific inputs.
-/

/-- A state whose single cart (id 1, user 7) holds one `CartItem` for the single
book, with every remaining field a parameter. -/
def singleItemDB (u cid bid iid : Nat) (p : ℚ) (s q : ℤ) (oid nci : Nat) : DB :=
  { books := [⟨bid, p, s⟩], carts := [⟨cid, u⟩], cartItems := [⟨iid, cid, bid, q⟩],
    orders := [], orderItems := [], reviews := [], nextOrderId := oid,
    nextCartItemId := nci }

/-- User 7's cart (id 1) holds book 1 (price 10, stock 10) twice and book 2
(price 20, stock 5) three times. -/
def dbTwoItems : DB :=
  { books := [⟨1, 10, 10⟩, ⟨2, 20, 5⟩], carts := [⟨1, 7⟩],
    cartItems := [⟨1, 1, 1, 2⟩, ⟨2, 1, 2, 3⟩], orders := [], orderItems := [],
    reviews := [], nextOrderId := 1, nextCartItemId := 3 }

/-- The six writes `OrderSerializer.create` commits on `dbTwoItems` for user 7. -/
def writesTwoItems : List DBWrite :=
  [DBWrite.createOrder ⟨1, 7, "addr", 80⟩,
   DBWrite.createOrderItem ⟨1, 1, 2, 10⟩,
   DBWrite.saveBookStock 1 8,
   DBWrite.createOrderItem ⟨1, 2, 3, 20⟩,
   DBWrite.saveBookStock 2 2,
   DBWrite.deleteCartItems 1]

/-- User 7's cart is empty; one book exists. -/
def dbEmptyCart : DB :=
  { books := [⟨1, 10, 10⟩], carts := [⟨1, 7⟩], cartItems := [], orders := [],
    orderItems := [], reviews := [], nextOrderId := 1, nextCartItemId := 1 }

/-- Book 1 has stock 1 but user 7's cart asks for quantity 2. -/
def dbLowStock : DB :=
  { books := [⟨1, 10, 1⟩], carts := [⟨1, 7⟩], cartItems := [⟨1, 1, 1, 2⟩],
    orders := [], orderItems := [], reviews := [], nextOrderId := 1,
    nextCartItemId := 2 }

/-- Book 1 carries two reviews, with ratings 5 and 3. -/
def dbRatings : DB :=
  { books := [⟨1, 10, 10⟩], carts := [], cartItems := [], orders := [],
    orderItems := [], reviews := [⟨1, 1, 5⟩, ⟨1, 2, 3⟩], nextOrderId := 1,
    nextCartItemId := 1 }

/-- User 7's cart (id 1) holds book 5 with quantity 2. -/
def dbOneInCart : DB :=
  { books := [⟨5, 10, 10⟩], carts := [⟨1, 7⟩], cartItems := [⟨1, 1, 5, 2⟩],
    orders := [], orderItems := [], reviews := [], nextOrderId := 1,
    nextCartItemId := 2 }

/-- User 7's cart (id 1) holds book 1 (stock 5) twice and book 2 (stock 7) three
times; both quantities are within stock. -/
def dbGuarded : DB :=
  { books := [⟨1, 10, 5⟩, ⟨2, 20, 7⟩], carts := [⟨1, 7⟩],
    cartItems := [⟨1, 1, 1, 2⟩, ⟨2, 1, 2, 3⟩], orders := [], orderItems := [],
    reviews := [], nextOrderId := 1, nextCartItemId := 3 }

/-- The state `placeOrder dbGuarded 7 "addr"` reaches. -/
def dbGuardedAfter : DB :=
  { books := [⟨1, 10, 3⟩, ⟨2, 20, 4⟩], carts := [⟨1, 7⟩], cartItems := [],
    orders := [⟨1, 7, "addr", 80⟩],
    orderItems := [⟨1, 1, 2, 10⟩, ⟨1, 2, 3, 20⟩], reviews := [],
    nextOrderId := 2, nextCartItemId := 3 }

/-!
Helper lemmas about the row-update primitives.
-/

theorem length_overFirst (cid bid : Nat) (f : ℤ → ℤ) (xs : List CartItem) :
    (overFirst cid bid f xs).length = xs.length := by
  induction xs with
  | nil => rfl
  | cons x rest ih =>
    by_cases hx : pMatch cid bid x = true
    · simp [overFirst, hx]
    · simp [overFirst, hx, ih]

theorem filter_overFirst_self (cid bid : Nat) (f : ℤ → ℤ) (xs : List CartItem)
    (it0 : CartItem) (h : xs.filter (pMatch cid bid) = [it0]) :
    (overFirst cid bid f xs).filter (pMatch cid bid)
      = [{ it0 with quantity := f it0.quantity }] := by
  induction xs with
  | nil => simp at h
  | cons x rest ih =>
    by_cases hx : pMatch cid bid x = true
    · rw [List.filter_cons, if_pos hx] at h
      injection h with h1 h2
      subst h1
      have hx2 : pMatch cid bid { x with quantity := f x.quantity } = true := hx
      rw [overFirst, if_pos hx, List.filter_cons, if_pos hx2, h2]
    · rw [List.filter_cons, if_neg hx] at h
      rw [overFirst, if_neg hx, List.filter_cons, if_neg hx]
      exact ih h

theorem filter_overFirst_other (cid bid cid' bid' : Nat) (f : ℤ → ℤ)
    (hne : ¬(cid' = cid ∧ bid' = bid)) (xs : List CartItem) :
    (overFirst cid bid f xs).filter (pMatch cid' bid')
      = xs.filter (pMatch cid' bid') := by
  induction xs with
  | nil => rfl
  | cons x rest ih =>
    by_cases hx : pMatch cid bid x = true
    · have hx' : pMatch cid' bid' x = false := by
        cases hv : pMatch cid' bid' x with
        | false => rfl
        | true =>
          exfalso
          simp only [pMatch, Bool.and_eq_true, beq_iff_eq] at hx hv
          exact hne ⟨hv.1.symm.trans hx.1, hv.2.symm.trans hx.2⟩
      have hx2 : pMatch cid' bid' { x with quantity := f x.quantity } = false := hx'
      rw [overFirst, if_pos hx, List.filter_cons, List.filter_cons, if_neg, if_neg]
      · rw [hx']
        simp
      · rw [hx2]
        simp
    · rw [overFirst, if_neg hx, List.filter_cons, List.filter_cons, ih]

/-- C6: `ReviewViewSet.get_permissions` checks only authentication for
`update`/`partial_update`/`destroy`, so an authenticated requester (user 2, not
staff) who is not the author (user 1) of a review is permitted to mutate it,
although the spec's requirement (requester = author or elevated role) denies
this requester. -/
theorem claim_C6_review_mutation_authorization :
    reviewActionPermitted ReviewAction.update ⟨2, true, false⟩ 1 = true ∧
    reviewActionPermitted ReviewAction.partialUpdate ⟨2, true, false⟩ 1 = true ∧
    reviewActionPermitted ReviewAction.destroy ⟨2, true, false⟩ 1 = true ∧
    specReviewMutationAllowed ⟨2, true, false⟩ 1 = false := by
  decide

/-- C9: `CartViewSet.update_item` assigns the requested quantity to the row with
no validation, so a request with quantity 0 (or −3) stores a `CartItem` whose
quantity is zero (negative), breaking the positive-quantity invariant. -/
theorem claim_C9_update_item_stores_nonpositive :
    (updateItem dbOneInCart 7 5 (some 0)).map (fun db => pairQty db 1 5)
      = Except.ok [0] ∧
    (updateItem dbOneInCart 7 5 (some (-3))).map (fun db => pairQty db 1 5)
      = Except.ok [-3] := by
  constructor <;>
    simp [updateItem, dbOneInCart, getCart, pairItems, pairQty, pMatch,
      setFirst, overFirst, Except.map]

/-- C3: `OrderSerializer.create` commits its writes one at a time with no
transaction demarcation.  On a cart with two items the run commits six writes;
the state after only the first three writes have committed (the run aborted
before the second `OrderItem` insert) shows the order row present with one of
its two items, book 1's stock already decremented, book 2's stock and the cart
untouched — a partial order state the claim says can never be observed. -/
theorem claim_C3_order_placement_not_atomic :
    placeOrderWrites dbTwoItems 7 "addr" = Except.ok writesTwoItems ∧
    placeOrder dbTwoItems 7 "addr" = Except.ok (commitWrites dbTwoItems writesTwoItems) ∧
    (commitWrites dbTwoItems (writesTwoItems.take 3)).orders = [⟨1, 7, "addr", 80⟩] ∧
    (commitWrites dbTwoItems (writesTwoItems.take 3)).orderItems = [⟨1, 1, 2, 10⟩] ∧
    getBook (commitWrites dbTwoItems (writesTwoItems.take 3)) 1 = some ⟨1, 10, 8⟩ ∧
    getBook (commitWrites dbTwoItems (writesTwoItems.take 3)) 2 = some ⟨2, 20, 5⟩ ∧
    cartItemsOf (commitWrites dbTwoItems (writesTwoItems.take 3)) 1
      = dbTwoItems.cartItems := by
  refine ⟨?_, ?_, ?_, ?_, ?_, ?_, ?_⟩ <;>
    (simp [placeOrder, placeOrderWrites, placeOrderRun, commitWrites,
      writesTwoItems, dbTwoItems, getCart, getBook, cartItemsOf, cartTotalPrice,
      itemWrites, applyWrite, updateStock, pMatch, Except.map] <;> norm_num)

/-- C5 counterexample: with book 1 at stock 1 and a cart ordering quantity 2,
order placement succeeds and leaves `stock_quantity = -1`, so the invariant
"stock_quantity ≥ 0 at all times" fails on the code. -/
theorem claim_C5_counterexample_negative_stock :
    (placeOrder dbLowStock 7 "addr").map (fun db => db.books)
      = Except.ok [⟨1, 10, -1⟩] ∧ (-1 : ℤ) < 0 := by
  constructor
  · simp [placeOrder, placeOrderRun, dbLowStock, getCart, cartItemsOf,
      cartTotalPrice, getBook, itemWrites, applyWrite, updateStock, Except.map]
  · decide

/-- C4: placing an order while the requester's cart holds no `CartItem`s fails
with exactly the domain error "Cannot place order with empty cart", and no
resulting state (in particular no `Order` row) is ever produced; the check runs
before any write, so the failed attempt modifies nothing. -/
theorem claim_C4_empty_cart_rejected (db : DB) (u : Nat) (cart : Cart)
    (addr : String) (hc : getCart db u = some cart)
    (h : cartItemsOf db cart.id = []) :
    placeOrder db u addr = Except.error "Cannot place order with empty cart" ∧
    ∀ db', placeOrder db u addr ≠ Except.ok db' := by
  have h1 : placeOrder db u addr
      = Except.error "Cannot place order with empty cart" := by
    simp [placeOrder, placeOrderRun, hc, h, Except.map]
  refine ⟨h1, fun db' hcontra => ?_⟩
  rw [h1] at hcontra
  exact Except.noConfusion hcontra

/-- Witness for C4: user 7's cart in `dbEmptyCart` is empty and order placement
reports the domain error. -/
theorem claim_C4_witness :
    placeOrder dbEmptyCart 7 "addr"
      = Except.error "Cannot place order with empty cart" :=
  (claim_C4_empty_cart_rejected dbEmptyCart 7 ⟨1, 7⟩ "addr" (by decide)
    (by decide)).1

/-- C7: creating a review for a book the requester has already reviewed fails
with the validation error and (being an error) leaves the table unchanged, and a
successful creation happens only from a state with no review for the
(book, user) pair and leaves exactly one such review — so the count for the pair
can never pass 1 through this operation. -/
theorem claim_C7_duplicate_review_rejected (db : DB) (u bid : Nat) (r : ℤ) :
    (reviewsFor db bid u ≠ [] →
      createReview db u bid r
        = Except.error "You have already reviewed this book.") ∧
    ∀ db', createReview db u bid r = Except.ok db' →
      reviewsFor db bid u = [] ∧ reviewsFor db' bid u = [⟨bid, u, r⟩] := by
  by_cases h : (reviewsFor db bid u).isEmpty = true
  · have hnil : reviewsFor db bid u = [] := by simpa using h
    refine ⟨fun hne => absurd hnil hne, fun db' hok => ?_⟩
    have hok' : (Except.ok { db with reviews := db.reviews ++ [⟨bid, u, r⟩]}
        : Except String DB) = Except.ok db' := by
      rw [← hok]; simp [createReview, h]
    injection hok' with hdb
    subst hdb
    refine ⟨hnil, ?_⟩
    simp only [reviewsFor] at hnil ⊢
    simp [List.filter_append, hnil]
  · have herr : createReview db u bid r
        = Except.error "You have already reviewed this book." := by
      simp [createReview, h]
    refine ⟨fun _ => herr, fun db' hok => ?_⟩
    rw [herr] at hok
    exact Except.noConfusion hok

/-- Witness for C7: user 1 already reviewed book 1 in `dbRatings`, so a second
attempt fails with the validation error. -/
theorem claim_C7_witness :
    createReview dbRatings 1 1 4
      = Except.error "You have already reviewed this book." :=
  (claim_C7_duplicate_review_rejected dbRatings 1 1 4).1 (by decide)

/-- C8: the average rating is `none` exactly when the book has no reviews (never
zero), any returned value is the exact arithmetic mean (value × count = sum of
ratings), and on `dbRatings` (ratings 5 and 3) it is 4. -/
theorem claim_C8_average_rating (db : DB) (bid : Nat) :
    (get_average_rating db bid = none ↔ bookReviews db bid = []) ∧
    (∀ q : ℚ, get_average_rating db bid = some q →
      q * ((bookReviews db bid).length : ℚ)
        = ((bookReviews db bid).map (fun r => (r.rating : ℚ))).sum) ∧
    get_average_rating dbRatings 1 = some 4 := by
  refine ⟨?_, ?_, ?_⟩
  · by_cases h : (bookReviews db bid).isEmpty = true
    · simp only [List.isEmpty_iff] at h
      simp [get_average_rating, h]
    · have hnil : bookReviews db bid ≠ [] := by
        intro hnil; rw [hnil] at h; exact h rfl
      simp [get_average_rating, h, hnil]
  · intro q hq
    by_cases h : (bookReviews db bid).isEmpty = true
    · simp [get_average_rating, h] at hq
    · simp only [get_average_rating, h, if_false, Bool.false_eq_true,
        if_neg, Option.some.injEq] at hq
      have hnil : bookReviews db bid ≠ [] := by
        intro hnil; rw [hnil] at h; exact h rfl
      have hne : ((bookReviews db bid).length : ℚ) ≠ 0 := by
        exact_mod_cast Nat.pos_iff_ne_zero.mp (List.length_pos.mpr hnil)
      rw [← hq, div_mul_cancel₀ _ hne]
  · simp [get_average_rating, dbRatings, bookReviews, List.filter]
    norm_num

/-- Witness for C8: on `dbRatings` the value 4 is returned and is the exact mean
of the two ratings. -/
theorem claim_C8_witness :
    get_average_rating dbRatings 1 = some 4 ∧
    (4 : ℚ) * ((bookReviews dbRatings 1).length : ℚ)
      = ((bookReviews dbRatings 1).map (fun r => (r.rating : ℚ))).sum := by
  have h := claim_C8_average_rating dbRatings 1
  exact ⟨h.2.2, h.2.1 4 h.2.2⟩

/-- C2: adding a book to the cart creates a single new `CartItem` when the
(cart, book) pair has no row yet — so a second add of the same book finds the
row and increments its quantity (rather than replacing it), leaving one row with
quantity q1 + q2 — and when a row already exists the add increments that row's
quantity and the number of rows does not change, so two rows for a pair can
never arise. -/
theorem claim_C2_add_to_cart_merges (db : DB) (u bid : Nat) (cart : Cart)
    (q1 q2 : ℤ) (hc : getCart db u = some cart) :
    (pairItems db cart.id bid = [] →
      (addItem db u bid (some q1)).map (fun db1 =>
          (pairQty db1 cart.id bid, db1.cartItems.length,
            (addItem db1 u bid (some q2)).map (fun db2 =>
              (pairQty db2 cart.id bid, db2.cartItems.length))))
        = Except.ok ([q1], db.cartItems.length + 1,
            Except.ok ([q1 + q2], db.cartItems.length + 1))) ∧
    (∀ it0, pairItems db cart.id bid = [it0] →
      (addItem db u bid (some q1)).map (fun db1 =>
          (pairQty db1 cart.id bid, db1.cartItems.length))
        = Except.ok ([it0.quantity + q1], db.cartItems.length)) := by
  constructor
  · intro h
    have hfil : db.cartItems.filter (pMatch cart.id bid) = [] := h
    have e1 : addItem db u bid (some q1) = Except.ok
        { db with
          cartItems := db.cartItems ++ [⟨db.nextCartItemId, cart.id, bid, q1⟩],
          nextCartItemId := db.nextCartItemId + 1 } := by
      simp [addItem, hc, h]
    rw [e1]
    simp only [Except.map]
    have hmatch : pMatch cart.id bid
        (⟨db.nextCartItemId, cart.id, bid, q1⟩ : CartItem) = true := by
      simp [pMatch]
    have hpair1 : (db.cartItems
          ++ [(⟨db.nextCartItemId, cart.id, bid, q1⟩ : CartItem)]).filter
          (pMatch cart.id bid)
        = [⟨db.nextCartItemId, cart.id, bid, q1⟩] := by
      rw [List.filter_append, hfil]
      simp [hmatch]
    have hc1 : getCart { db with
        cartItems := db.cartItems ++ [⟨db.nextCartItemId, cart.id, bid, q1⟩],
        nextCartItemId := db.nextCartItemId + 1 } u = some cart := hc
    have e2 : addItem { db with
          cartItems := db.cartItems ++ [⟨db.nextCartItemId, cart.id, bid, q1⟩],
          nextCartItemId := db.nextCartItemId + 1 } u bid (some q2)
        = Except.ok { db with
          cartItems := bumpFirst cart.id bid q2
            (db.cartItems ++ [⟨db.nextCartItemId, cart.id, bid, q1⟩]),
          nextCartItemId := db.nextCartItemId + 1 } := by
      simp [addItem, hc1, pairItems, hpair1]
    rw [e2]
    simp only [Except.map, Except.ok.injEq, Prod.mk.injEq]
    have hbump : (bumpFirst cart.id bid q2
          (db.cartItems ++ [⟨db.nextCartItemId, cart.id, bid, q1⟩])).filter
          (pMatch cart.id bid)
        = [⟨db.nextCartItemId, cart.id, bid, q1 + q2⟩] := by
      rw [bumpFirst,
        filter_overFirst_self cart.id bid _ _ _ hpair1]
    refine ⟨?_, ?_, ?_⟩
    · simp [pairQty, pairItems, hpair1]
    · simp
    · refine ⟨?_, ?_⟩
      · simp [pairQty, pairItems, hbump]
      · simp [bumpFirst, length_overFirst]
  · intro it0 h
    have hfil : db.cartItems.filter (pMatch cart.id bid) = [it0] := h
    have e1 : addItem db u bid (some q1) = Except.ok
        { db with cartItems := bumpFirst cart.id bid q1 db.cartItems } := by
      simp [addItem, hc, h]
    rw [e1]
    simp only [Except.map, Except.ok.injEq, Prod.mk.injEq]
    have hbump : (bumpFirst cart.id bid q1 db.cartItems).filter (pMatch cart.id bid)
        = [{ it0 with quantity := it0.quantity + q1 }] := by
      rw [bumpFirst, filter_overFirst_self cart.id bid _ _ _ hfil]
    refine ⟨?_, ?_⟩
    · simp [pairQty, pairItems, hbump]
    · simp [bumpFirst, length_overFirst]

/-- Witness for C2: on `dbEmptyCart` (cart 1 of user 7, no rows) adding book 1
with quantity 2 and then 3 leaves a single row of quantity 5. -/
theorem claim_C2_witness :
    (addItem dbEmptyCart 7 1 (some 2)).map (fun db1 =>
        (pairQty db1 1 1, db1.cartItems.length,
          (addItem db1 7 1 (some 3)).map (fun db2 =>
            (pairQty db2 1 1, db2.cartItems.length))))
      = Except.ok ([2], 1, Except.ok ([2 + 3], 1)) :=
  (claim_C2_add_to_cart_merges dbEmptyCart 7 1 ⟨1, 7⟩ 2 3 (by decide)).1
    (by decide)

/-- C10: when the cart holds a row for the book, `update_item` replaces that
row's quantity with exactly the requested value (keeping its id, cart and book
and the number of rows), leaves every other (cart, book) pair's rows unchanged,
and a request without a quantity defaults it to 1. -/
theorem claim_C10_update_item_replaces (db : DB) (u bid : Nat) (cart : Cart)
    (q : ℤ) (it0 : CartItem) (hc : getCart db u = some cart)
    (h : pairItems db cart.id bid = [it0]) :
    (updateItem db u bid (some q)).map (fun db1 =>
        (pairItems db1 cart.id bid, db1.cartItems.length))
      = Except.ok ([{ it0 with quantity := q }], db.cartItems.length) ∧
    (∀ cid' bid', ¬(cid' = cart.id ∧ bid' = bid) →
      (updateItem db u bid (some q)).map (fun db1 => pairItems db1 cid' bid')
        = Except.ok (pairItems db cid' bid')) ∧
    updateItem db u bid none = updateItem db u bid (some 1) := by
  have hfil : db.cartItems.filter (pMatch cart.id bid) = [it0] := h
  have e1 : updateItem db u bid (some q) = Except.ok
      { db with cartItems := setFirst cart.id bid q db.cartItems } := by
    simp [updateItem, hc, h]
  refine ⟨?_, ?_, rfl⟩
  · rw [e1]
    simp only [Except.map, Except.ok.injEq, Prod.mk.injEq]
    have hset : (setFirst cart.id bid q db.cartItems).filter (pMatch cart.id bid)
        = [{ it0 with quantity := q }] := by
      rw [setFirst, filter_overFirst_self cart.id bid _ _ _ hfil]
    refine ⟨?_, ?_⟩
    · simp [pairItems, hset]
    · simp [setFirst, length_overFirst]
  · intro cid' bid' hne
    rw [e1]
    simp only [Except.map]
    simp only [pairItems]
    rw [setFirst, filter_overFirst_other cart.id bid cid' bid' _ hne]

/-- Witness for C10: setting book 5's quantity to 9 in `dbOneInCart` replaces
the stored quantity 2, other pairs stay empty, and the default request equals
quantity 1. -/
theorem claim_C10_witness :
    (updateItem dbOneInCart 7 5 (some 9)).map (fun db1 =>
        (pairItems db1 1 5, db1.cartItems.length))
      = Except.ok ([⟨1, 1, 5, 9⟩], 1) ∧
    (updateItem dbOneInCart 7 5 (some 9)).map (fun db1 => pairItems db1 1 4)
      = Except.ok (pairItems dbOneInCart 1 4) ∧
    updateItem dbOneInCart 7 5 none = updateItem dbOneInCart 7 5 (some 1) := by
  have h := claim_C10_update_item_replaces dbOneInCart 7 5 ⟨1, 7⟩ 9 ⟨1, 1, 5, 2⟩
    (by decide) (by decide)
  exact ⟨h.1, h.2.1 1 4 (by decide), h.2.2⟩

/-- C1: placing an order from a cart holding the single item (book `bid`, price
`p`, quantity `q`) creates an `Order` with `total_price = p * q` computed at
placement, one `OrderItem` copying the book, the quantity and the book's current
price as a snapshot, decrements the book's stock by `q`, and deletes the
`CartItem`s so the cart ends empty while the `Cart` row itself persists; for
price 19.99 and quantity 2 the total is 39.98 and stock drops from 10 to 8. -/
theorem claim_C1_order_placement (u cid bid iid oid nci : Nat) (p : ℚ)
    (s q : ℤ) (addr : String) :
    placeOrder (singleItemDB u cid bid iid p s q oid nci) u addr
      = Except.ok
        { books := [⟨bid, p, s - q⟩], carts := [⟨cid, u⟩], cartItems := [],
          orders := [⟨oid, u, addr, p * (q : ℚ)⟩],
          orderItems := [⟨oid, bid, q, p⟩], reviews := [],
          nextOrderId := oid + 1, nextCartItemId := nci } ∧
    placeOrder (singleItemDB 7 1 5 1 (19.99 : ℚ) 10 2 1 2) 7 "addr"
      = Except.ok
        { books := [⟨5, 19.99, 8⟩], carts := [⟨1, 7⟩], cartItems := [],
          orders := [⟨1, 7, "addr", (39.98 : ℚ)⟩],
          orderItems := [⟨1, 5, 2, 19.99⟩], reviews := [],
          nextOrderId := 2, nextCartItemId := 2 } := by
  constructor <;>
    (simp [placeOrder, placeOrderRun, singleItemDB, getCart, cartItemsOf,
      cartTotalPrice, getBook, itemWrites, applyWrite, updateStock, pMatch,
      Except.map] <;> norm_num)

/-!
Lemmas for the amended stock invariant: the book lookup and the stock field
after a stock write.
-/

theorem find_updateStock_ne (books : List Book) (bid bid' : Nat) (s : ℤ)
    (hne : bid' ≠ bid) :
    (updateStock books bid s).find? (fun b => b.id == bid')
      = books.find? (fun b => b.id == bid') := by
  induction books with
  | nil => rfl
  | cons b rest ih =>
    simp only [updateStock, List.map_cons]
    by_cases hb : b.id = bid
    · have h1 : (b.id == bid) = true := by simpa using hb
      have h2 : (b.id == bid') = false := by
        simp only [beq_eq_false_iff_ne, ne_eq, hb]
        exact fun h => hne h.symm
      rw [if_pos h1]
      rw [List.find?_cons, List.find?_cons, h2]
      exact ih
    · have h1 : (b.id == bid) = false := by simpa using hb
      rw [if_neg (by simp [h1])]
      rw [List.find?_cons, List.find?_cons]
      cases hp : (b.id == bid') with
      | true => rfl
      | false => exact ih

theorem stock_nonneg_updateStock (books : List Book) (bid : Nat) (s : ℤ)
    (h0 : ∀ b ∈ books, 0 ≤ b.stock_quantity) (hs : 0 ≤ s) :
    ∀ b ∈ updateStock books bid s, 0 ≤ b.stock_quantity := by
  intro b hb
  simp only [updateStock, List.mem_map] at hb
  obtain ⟨b0, hb0, rfl⟩ := hb
  by_cases h : (b0.id == bid) = true
  · simpa [h] using hs
  · simp only [Bool.not_eq_true] at h
    simpa [h] using h0 b0 hb0

theorem itemWrites_stock_nonneg (items : List CartItem) :
    ∀ (db : DB) (oid : Nat) (db2 : DB) (ws : List DBWrite),
      (∀ b ∈ db.books, 0 ≤ b.stock_quantity) →
      items.Pairwise (fun i j => i.bookId ≠ j.bookId) →
      (∀ it ∈ items, ∀ b, getBook db it.bookId = some b →
        it.quantity ≤ b.stock_quantity) →
      itemWrites db oid items = Except.ok (db2, ws) →
      ∀ b ∈ db2.books, 0 ≤ b.stock_quantity := by
  induction items with
  | nil =>
    intro db oid db2 ws h0 _ _ hok
    simp only [itemWrites, Except.ok.injEq, Prod.mk.injEq] at hok
    rw [← hok.1]
    exact h0
  | cons it rest ih =>
    intro db oid db2 ws h0 hpw hqty hok
    obtain ⟨hhead, htail⟩ := List.pairwise_cons.mp hpw
    simp only [itemWrites] at hok
    cases hgb : getBook db it.bookId with
    | none =>
      simp only [hgb] at hok
      exact Except.noConfusion hok
    | some b0 =>
      simp only [hgb] at hok
      cases hrec : itemWrites
          (applyWrite (applyWrite db
            (DBWrite.createOrderItem ⟨oid, it.bookId, it.quantity, b0.price⟩))
            (DBWrite.saveBookStock it.bookId (b0.stock_quantity - it.quantity)))
          oid rest with
      | error e =>
        simp only [hrec] at hok
        exact Except.noConfusion hok
      | ok p =>
        obtain ⟨db2', ws'⟩ := p
        simp only [hrec, Except.ok.injEq, Prod.mk.injEq] at hok
        obtain ⟨rfl, -⟩ := hok
        refine ih _ oid db2' ws' ?_ htail ?_ hrec
        · intro b hb
          simp only [applyWrite] at hb ⊢
          exact stock_nonneg_updateStock db.books it.bookId
            (b0.stock_quantity - it.quantity) h0
            (sub_nonneg.mpr (hqty it (List.mem_cons_self it rest) b0 hgb)) b hb
        · intro it' hit' b hb
          have hne : it'.bookId ≠ it.bookId := fun h => hhead it' hit' h.symm
          have : getBook (applyWrite (applyWrite db
              (DBWrite.createOrderItem ⟨oid, it.bookId, it.quantity, b0.price⟩))
              (DBWrite.saveBookStock it.bookId (b0.stock_quantity - it.quantity)))
              it'.bookId = getBook db it'.bookId := by
            simp only [getBook, applyWrite]
            exact find_updateStock_ne db.books it.bookId it'.bookId
              (b0.stock_quantity - it.quantity) hne
          rw [this] at hb
          exact hqty it' (List.mem_cons_of_mem it hit') b hb

/-- C5 (amended): `stock_quantity` stays non-negative only under a guard the
code does not enforce — whenever every cart item's quantity is at most its
book's current stock (and the cart references each book at most once), a
successful order placement starting from non-negative stocks leaves every book's
stock non-negative; without that guard the decrement drives the stock negative,
as the counterexample shows. -/
theorem claim_C5_amended_stock_nonneg (db : DB) (u : Nat) (cart : Cart)
    (addr : String) (db' : DB)
    (h0 : ∀ b ∈ db.books, 0 ≤ b.stock_quantity)
    (hc : getCart db u = some cart)
    (hpw : (cartItemsOf db cart.id).Pairwise (fun i j => i.bookId ≠ j.bookId))
    (hqty : ∀ it ∈ cartItemsOf db cart.id, ∀ b, getBook db it.bookId = some b →
      it.quantity ≤ b.stock_quantity)
    (hok : placeOrder db u addr = Except.ok db') :
    ∀ b ∈ db'.books, 0 ≤ b.stock_quantity := by
  unfold placeOrder placeOrderRun at hok
  simp only [hc] at hok
  by_cases hemp : (cartItemsOf db cart.id).isEmpty = true
  · rw [if_pos hemp] at hok
    exact absurd hok (by simp [Except.map])
  · rw [if_neg hemp] at hok
    cases htp : cartTotalPrice db (cartItemsOf db cart.id) with
    | none =>
      simp only [htp] at hok
      exact absurd hok (by simp [Except.map])
    | some total =>
      simp only [htp] at hok
      cases hiw : itemWrites
          (applyWrite db (DBWrite.createOrder ⟨db.nextOrderId, u, addr, total⟩))
          db.nextOrderId (cartItemsOf db cart.id) with
      | error e =>
        simp only [hiw] at hok
        exact absurd hok (by simp [Except.map])
      | ok p =>
        obtain ⟨db2, ws⟩ := p
        simp only [hiw, Except.map, Except.ok.injEq] at hok
        have hbooks : ∀ b ∈ db2.books, 0 ≤ b.stock_quantity := by
          refine itemWrites_stock_nonneg (cartItemsOf db cart.id) _
            db.nextOrderId db2 ws ?_ hpw ?_ hiw
          · intro b hb
            simp only [applyWrite] at hb
            exact h0 b hb
          · intro it hit b hb
            simp only [getBook, applyWrite] at hb
            exact hqty it hit b hb
        rw [← hok]
        simp only [applyWrite]
        exact hbooks

/-- Witness for the amended C5: on `dbGuarded` (stocks 5 and 7, quantities 2 and
3, both within stock) placement leaves both stocks non-negative. -/
theorem claim_C5_witness :
    (0 : ℤ) ≤ (Book.mk 1 10 3).stock_quantity ∧
    (0 : ℤ) ≤ (Book.mk 2 20 4).stock_quantity := by
  have hok : placeOrder dbGuarded 7 "addr" = Except.ok dbGuardedAfter := by
    simp [placeOrder, placeOrderRun, dbGuarded, dbGuardedAfter, getCart,
      cartItemsOf, cartTotalPrice, getBook, itemWrites, applyWrite, updateStock,
      pMatch, Except.map] <;> norm_num
  have h := claim_C5_amended_stock_nonneg dbGuarded 7 ⟨1, 7⟩ "addr"
    dbGuardedAfter (by decide) (by decide) (by decide)
    (by
      intro it hit b hgb
      have hit' : it = (⟨1, 1, 1, 2⟩ : CartItem) ∨ it = (⟨2, 1, 2, 3⟩ : CartItem) := by
        simpa [cartItemsOf, dbGuarded] using hit
      rcases hit' with rfl | rfl
      · simp [getBook, dbGuarded] at hgb
        subst hgb
        norm_num
      · simp [getBook, dbGuarded] at hgb
        subst hgb
        norm_num)
    hok
  exact ⟨h ⟨1, 10, 3⟩ (by simp [dbGuardedAfter]),
    h ⟨2, 20, 4⟩ (by simp [dbGuardedAfter])⟩

end Bookstore
